import Mathlib

/-!
Verification development for the daily cost reporter
(`src/funcs/cost-report.lambda.ts`).

The embedding models the Lambda's pure logic:
* the JavaScript `Date` calendar arithmetic used by `getDateRange`
  (month/day normalization of `new Date(y, m, d)`),
* the Cost Explorer response shapes and the three fetchers
  `getTotalBilling`, `getServiceBilling`, `getAccountBillings`
  (the SDK client is a function from the page token to an optional
  response; `none` models a rejected promise, which the source catches
  and turns into `undefined`),
* the `handler` orchestration (validation, fetches, Slack posts).

Note on amounts: the TypeScript interfaces declare `amount: number`, but the
values are taken untyped (via `Object(...)`) from the SDK response whose
`Amount` field is a string, and are never parsed; at runtime the amounts are
the API's strings, so the embedding gives them type `String`.
-/

namespace CostReport

/-- A JavaScript `Date` reduced to its calendar components: `getFullYear`,
`getMonth` (0-based) and `getDate` (1-based day of month). -/
structure JSDate where
  year : Int
  month : Int
  day : Int
  deriving DecidableEq, Repr

/-- Gregorian leap-year rule (as implemented by the JS `Date` calendar). -/
def isLeapYear (y : Int) : Bool :=
  (y % 4 == 0 && y % 100 != 0) || y % 400 == 0

/-- Number of days of month `m` (0-based, assumed normalized into `0..11`)
of year `y` in the JS `Date` calendar. -/
def daysInMonth (y m : Int) : Int :=
  if m = 1 then (if isLeapYear y then 29 else 28)
  else if m = 3 ∨ m = 5 ∨ m = 8 ∨ m = 10 then 30
  else 31

/-- The month preceding `(y, m)` with `m` normalized in `0..11`. -/
def prevMonth (y m : Int) : Int × Int :=
  if m = 0 then (y - 1, 11) else (y, m - 1)

/-- The month following `(y, m)` with `m` normalized in `0..11`. -/
def nextMonth (y m : Int) : Int × Int :=
  if m = 11 then (y + 1, 0) else (y, m + 1)

/-- Month normalization of the JS `new Date(y, m, d)` constructor: an
out-of-range month index is folded into the year.  Fuel-indexed loop; the
fuel chosen in `mkDate` always suffices. -/
def normMonthAux : Nat → Int → Int → Int × Int
  | 0, y, m => (y, m)
  | fuel + 1, y, m =>
    if m < 0 then normMonthAux fuel (y - 1) (m + 12)
    else if 11 < m then normMonthAux fuel (y + 1) (m - 12)
    else (y, m)

/-- Day normalization of the JS `new Date(y, m, d)` constructor: a day
outside `1..daysInMonth` borrows from the previous month or carries into
the next one.  Fuel-indexed loop; the fuel chosen in `mkDate` always
suffices. -/
def normDayAux : Nat → Int → Int → Int → JSDate
  | 0, y, m, d => ⟨y, m, d⟩
  | fuel + 1, y, m, d =>
    if d < 1 then
      let p := prevMonth y m
      normDayAux fuel p.1 p.2 (d + daysInMonth p.1 p.2)
    else if daysInMonth y m < d then
      let n := nextMonth y m
      normDayAux fuel n.1 n.2 (d - daysInMonth y m)
    else ⟨y, m, d⟩

/-- The calendar part of the JS `new Date(y, m, d)` constructor: normalize
the month into `0..11` (adjusting the year), then the day into the month
(borrowing/carrying whole months). -/
def mkDate (y m d : Int) : JSDate :=
  normDayAux (d.natAbs + 2) (normMonthAux (m.natAbs + 2) y m).1
    (normMonthAux (m.natAbs + 2) y m).2 d

/-- `('00' + n).slice(-2)`: decimal string of `n` left-padded to (at least)
two characters, keeping the last two. -/
def pad2 (n : Int) : String :=
  ("00" ++ toString n).takeRight 2

/-- `dateFormatString` from the source: formats a date as `YYYY-MM-DD`
(month shown 1-based, month and day zero-padded to two digits). -/
def dateFormatString (d : JSDate) : String :=
  toString d.year ++ "-" ++ pad2 (d.month + 1) ++ "-" ++ pad2 d.day

/-- `DateRange` from the source; the TS field `end` is called `stop` here
because `end` is a Lean keyword. -/
structure DateRange where
  start : String
  stop : String
  deriving DecidableEq, Repr

/-- `getDateRange` from the source, with the wall-clock `now` made an
explicit argument.  On the 1st of the month: previous month's 1st through
`new Date(y, m, 0)` (the day before the 1st of the current month);
otherwise: the 1st of the current month through yesterday. -/
def getDateRange (now : JSDate) : DateRange :=
  if now.day = 1 then
    { start := dateFormatString (mkDate now.year (now.month - 1) 1)
      stop := dateFormatString (mkDate now.year now.month 0) }
  else
    { start := dateFormatString (mkDate now.year now.month 1)
      stop := dateFormatString (mkDate now.year now.month (now.day - 1)) }

/-- `now` is a well-formed calendar instant: month index in `0..11` and day
within the month. -/
def ValidDate (d : JSDate) : Prop :=
  0 ≤ d.month ∧ d.month ≤ 11 ∧ 1 ≤ d.day ∧ d.day ≤ daysInMonth d.year d.month

instance (d : JSDate) : Decidable (ValidDate d) := by
  unfold ValidDate; infer_instance

/-- Modelled from the spec: the reporting range described by §4.1 — if the
day-of-month of `now` is 1, the entire previous calendar month (first day
through last day); otherwise the first of the current month through the
previous day.  Stated on structured dates, for comparison with
`getDateRange`. -/
def specComputeRange (now : JSDate) : JSDate × JSDate :=
  if now.day = 1 then
    let p := prevMonth now.year now.month
    (⟨p.1, p.2, 1⟩, ⟨p.1, p.2, daysInMonth p.1 p.2⟩)
  else
    (⟨now.year, now.month, 1⟩, ⟨now.year, now.month, now.day - 1⟩)

/-! ### Cost Explorer model -/

/-- JS truthiness of an optional string: `undefined` and `''` are falsy. -/
def jsTruthy (s : Option String) : Bool :=
  s.getD "" != ""

/-- `Metrics.AmortizedCost` (and `Total.AmortizedCost`) of a response:
`Amount` and `Unit` are the SDK's strings. -/
structure AmortizedCost where
  amount : String
  unit : String
  deriving DecidableEq, Repr

/-- One entry of `ResultsByTime[i].Groups`. -/
structure CEGroup where
  keys : List String
  amortizedCost : AmortizedCost
  deriving DecidableEq, Repr

/-- One entry of `ResultsByTime`: its `Total.AmortizedCost` and `Groups`. -/
structure TimeResult where
  total : AmortizedCost
  groups : List CEGroup
  deriving DecidableEq, Repr

/-- One entry of `DimensionValueAttributes`; `Attributes?.description` may
be absent. -/
structure DimAttr where
  value : String
  description : Option String
  deriving DecidableEq, Repr

/-- A `GetCostAndUsage` response.  An absent `ResultsByTime` is modelled as
the empty list (both fail the `length === 1` check). -/
structure CEResponse where
  resultsByTime : List TimeResult
  nextPageToken : Option String
  dimensionValueAttributes : Option (List DimAttr)
  deriving DecidableEq, Repr

/-- The Cost Explorer client for one fixed query shape: maps the
`NextPageToken` of the request to the response, `none` modelling a rejected
promise (which the source catches and turns into `undefined`). -/
abbrev CEClient := Option String → Option CEResponse

/-- `TotalBilling` from the source (amount kept as the API's string, see
the header note). -/
structure TotalBilling where
  unit : String
  amount : String
  deriving DecidableEq, Repr

/-- `ServiceBilling` from the source. -/
structure ServiceBilling where
  service : String
  unit : String
  amount : String
  deriving DecidableEq, Repr

/-- `AccountBilling` from the source. -/
structure AccountBilling where
  account : String
  amount : String
  unit : String
  deriving DecidableEq, Repr

/-- `getTotalBilling` from the source, applied to the client's response:
if the response has exactly one `ResultsByTime` bucket, its
`Total.AmortizedCost` is returned; a failed call (`none`) or any other
bucket count yields `none`. -/
def getTotalBilling (resp : Option CEResponse) : Option TotalBilling :=
  match resp with
  | none => none
  | some data =>
    match data.resultsByTime with
    | [r] => some { unit := r.total.unit, amount := r.total.amount }
    | _ => none

/-- The row-building loop of `getServiceBilling`: one `ServiceBilling` per
group, in group order (`Keys[0]`, modelled as `headD ""`). -/
def serviceRows (groups : List CEGroup) : List ServiceBilling :=
  groups.map (fun g =>
    { service := g.keys.headD ""
      unit := g.amortizedCost.unit
      amount := g.amortizedCost.amount })

/-- `getServiceBilling` from the source, fuel-indexed (the source recurses
on the unbounded token chain; every theorem supplies enough fuel).  A
failed call or a bucket count other than one yields `none` for that page;
note that when the recursive call for the next page yields `none`, the
source falls through to `return billings`, keeping the rows accumulated on
this page. -/
def getServiceBilling (client : CEClient) : Nat → Option String → Option (List ServiceBilling)
  | 0, _ => none
  | fuel + 1, tok =>
    match client tok with
    | none => none
    | some data =>
      match data.resultsByTime with
      | [r] =>
        if jsTruthy data.nextPageToken then
          match getServiceBilling client fuel data.nextPageToken with
          | some nextBillings => some (serviceRows r.groups ++ nextBillings)
          | none => some (serviceRows r.groups)
        else some (serviceRows r.groups)
      | _ => none

/-- The row-building double loop of `getAccountBillings`: for each group
(outer) and each dimension-value attribute (inner), a row is pushed only
when `Keys[0] === attr.Value`; the label is
`"<id> (<description ?? ''>)"`. -/
def accountRows (groups : List CEGroup) (attrs : List DimAttr) : List AccountBilling :=
  groups.flatMap (fun g =>
    attrs.filterMap (fun attr =>
      if g.keys.head? == some attr.value then
        some { account := attr.value ++ " (" ++ attr.description.getD "" ++ ")"
               unit := g.amortizedCost.unit
               amount := g.amortizedCost.amount }
      else none))

/-- `getAccountBillings` from the source, fuel-indexed like
`getServiceBilling`; `DimensionValueAttributes ?? []` is `getD []`. -/
def getAccountBillings (client : CEClient) : Nat → Option String → Option (List AccountBilling)
  | 0, _ => none
  | fuel + 1, tok =>
    match client tok with
    | none => none
    | some data =>
      match data.resultsByTime with
      | [r] =>
        if jsTruthy data.nextPageToken then
          match getAccountBillings client fuel data.nextPageToken with
          | some nextBillings =>
            some (accountRows r.groups (data.dimensionValueAttributes.getD []) ++ nextBillings)
          | none => some (accountRows r.groups (data.dimensionValueAttributes.getD []))
        else some (accountRows r.groups (data.dimensionValueAttributes.getD []))
      | _ => none

/-- The rows contributed by one response page in service mode (empty unless
the page has exactly one bucket; only used on pages that do). -/
def servicePageRows (p : CEResponse) : List ServiceBilling :=
  match p.resultsByTime with
  | [r] => serviceRows r.groups
  | _ => []

/-- `IsChain client t pages`: starting the query with token `t`, the client
answers with exactly the pages of `pages` in order, each page's (truthy)
`NextPageToken` leading to the next, the last page carrying no usable
token. -/
def IsChain (client : CEClient) : Option String → List CEResponse → Prop
  | _, [] => False
  | t, [p] => client t = some p ∧ jsTruthy p.nextPageToken = false
  | t, p :: q :: rest =>
    client t = some p ∧ jsTruthy p.nextPageToken = true ∧
      IsChain client p.nextPageToken (q :: rest)

/-- The rows contributed by one response page in account mode (empty unless
the page has exactly one bucket; only used on pages that do). -/
def accountPageRows (p : CEResponse) : List AccountBilling :=
  match p.resultsByTime with
  | [r] => accountRows r.groups (p.dimensionValueAttributes.getD [])
  | _ => []

/-- `IsChainUpto client t pages t'`: starting the query with token `t`, the
client answers with the pages of `pages` in order, every page's
`NextPageToken` truthy and leading to the next page, the last page's token
being `t'` — a successful prefix of a longer chain whose continuation
starts at `t'`. -/
def IsChainUpto (client : CEClient) : Option String → List CEResponse → Option String → Prop
  | _, [], _ => False
  | t, [p], t' =>
    client t = some p ∧ jsTruthy p.nextPageToken = true ∧ p.nextPageToken = t'
  | t, p :: q :: rest, t' =>
    client t = some p ∧ jsTruthy p.nextPageToken = true ∧
      IsChainUpto client p.nextPageToken (q :: rest) t'

/-- A page fetch at `t` that the source turns into `undefined`: either the
call is rejected or the response's result-bucket count is not one. -/
def BadPageAt (client : CEClient) (t : Option String) : Prop :=
  client t = none ∨ ∃ p, client t = some p ∧ p.resultsByTime.length ≠ 1

/-! ### Handler model -/

/-- The resolved Slack secret as it arrives at runtime: either field may be
missing (the tests exercise secrets lacking one of them). -/
structure SlackSecretValue where
  token : Option String
  channel : Option String
  deriving DecidableEq, Repr

/-- `MessageAttachmentField` from the source. -/
structure MessageAttachmentField where
  title : String
  value : String
  deriving DecidableEq, Repr

/-- One field of the threaded detail post as actually sent: title prefixed
with `":aws: "`, `short: false`. -/
structure PostedField where
  title : String
  value : String
  short : Bool
  deriving DecidableEq, Repr

/-- The root Slack post built by the handler: its `text` and the single
attachment's `text`. -/
structure RootPost where
  text : String
  attachmentText : String
  deriving DecidableEq, Repr

/-- The threaded detail post: the `thread_ts` it is attached to and its
attachment's fields (absent when the detail fetch returned `undefined`). -/
structure DetailPost where
  threadTs : Option String
  fields : Option (List PostedField)
  deriving DecidableEq, Repr

/-- Everything the handler reads from its surroundings: the
`SLACK_SECRET_NAME` variable, the fetched secret, the total-billing
response, the grouped-billing client, and the result of the root Slack
post (`ok` flag and `ts`). -/
structure HandlerEnv where
  slackSecretName : Option String
  secretValue : Option SlackSecretValue
  totalResp : Option CEResponse
  groupedClient : CEClient
  rootPostOk : Bool
  rootPostTs : Option String

/-- The observable outcome of a run: the durable-execution result
(`.ok "OK"` for `SUCCEEDED`, `.error msg` for a thrown validation error),
the values computed by the fetch steps, and the posts made by the notify
step (`none` when the run failed before posting, or — for the detail
post — when the root post's `ok` flag was false). -/
structure RunResult where
  outcome : Except String String
  totalBilling : Option TotalBilling
  detailFields : Option (List MessageAttachmentField)
  rootPost : Option RootPost
  detailPost : Option DetailPost

/-- JS string interpolation of a possibly-undefined value:
`` `${undefined}` `` renders as `"undefined"`. -/
def jsShow (s : Option String) : String :=
  s.getD "undefined"

/-- `pat` is an initial segment of `l`. -/
def startsWithChars : List Char → List Char → Bool
  | [], _ => true
  | _ :: _, [] => false
  | p :: ps, c :: cs => p == c && startsWithChars ps cs

/-- `pat` occurs contiguously somewhere in `l`. -/
def containsChars (pat : List Char) : List Char → Bool
  | [] => startsWithChars pat []
  | c :: cs => startsWithChars pat (c :: cs) || containsChars pat cs

/-- `pat` occurs in `s` — used to state that an error message names a
required field. -/
def containsSub (s pat : String) : Bool :=
  containsChars pat.data s.data

/-- A failed run: every step after the throw is skipped. -/
def failedRun (msg : String) : RunResult :=
  { outcome := .error msg
    totalBilling := none
    detailFields := none
    rootPost := none
    detailPost := none }

/-- The `handler` from the source, over an explicit environment, event
`type`, wall-clock `now` and pagination fuel.  Mirrors the source order:
validate `SLACK_SECRET_NAME`, the event `type` (falsy, then membership in
`{accounts, services}`), the secret's `token`/`channel`; then compute the
range, fetch the total and the mode-dispatched detail, post the root
message, and post the threaded detail only if the root post's `ok` flag is
true; finally return `'OK'`. -/
def handler (env : HandlerEnv) (eventType : String) (now : JSDate) (fuel : Nat) : RunResult :=
  if !jsTruthy env.slackSecretName then
    failedRun "missing environment variable SLACK_SECRET_NAME."
  else if eventType = "" then
    failedRun "missing input variable type"
  else if !(eventType == "accounts" || eventType == "services") then
    failedRun "invalid input variable Type. Valid values are accounts or services."
  else if !jsTruthy (env.secretValue.bind SlackSecretValue.token)
      || !jsTruthy (env.secretValue.bind SlackSecretValue.channel) then
    failedRun "Slack secret must contain token and channel."
  else
    let dateRange := getDateRange now
    let totalBilling := getTotalBilling env.totalResp
    let fields : Option (List MessageAttachmentField) :=
      if eventType == "accounts" then
        (getAccountBillings env.groupedClient fuel none).map
          (List.map fun v => { title := v.account, value := v.amount ++ " " ++ v.unit })
      else
        (getServiceBilling env.groupedClient fuel none).map
          (List.map fun v => { title := v.service, value := v.amount ++ " " ++ v.unit })
    { outcome := .ok "OK"
      totalBilling := totalBilling
      detailFields := fields
      rootPost := some
        { text := "AWS Cost Reports (" ++ dateRange.start ++ " - " ++ dateRange.stop ++ ")"
          attachmentText := jsShow (totalBilling.map TotalBilling.amount) ++ " "
            ++ jsShow (totalBilling.map TotalBilling.unit) }
      detailPost :=
        if env.rootPostOk then
          some { threadTs := env.rootPostTs
                 fields := fields.map (List.map fun f =>
                   { title := ":aws: " ++ f.title, value := f.value, short := false }) }
        else none }

/-! ### Concrete fixtures (pages and clients used by witnesses and
counterexamples) -/

/-- First page of a two-page service chain (spec §8 end-to-end scenario). -/
def chainPage1 : CEResponse :=
  { resultsByTime := [{ total := ⟨"", ""⟩, groups :=
      [⟨["AWS CloudTrail"], ⟨"0", "USD"⟩⟩, ⟨["AWS Config"], ⟨"0.012", "USD"⟩⟩] }]
    nextPageToken := some "T"
    dimensionValueAttributes := none }

/-- Second and last page of the two-page service chain. -/
def chainPage2 : CEResponse :=
  { resultsByTime := [{ total := ⟨"", ""⟩, groups := [⟨["Tax"], ⟨"1.39", "USD"⟩⟩] }]
    nextPageToken := none
    dimensionValueAttributes := none }

/-- Client serving the full two-page chain. -/
def chainClient : CEClient := fun t =>
  match t with
  | none => some chainPage1
  | some "T" => some chainPage2
  | _ => none

/-- Client whose first page is `chainPage1` but whose second page fetch
fails (rejected promise). -/
def brokenTailClient : CEClient := fun t =>
  match t with
  | none => some chainPage1
  | _ => none

/-- A middle page carrying a further continuation token `"U"`; its single
group (id `111`) also matches an account attribute, so it contributes a row
in both grouping modes. -/
def midPage : CEResponse :=
  { resultsByTime := [{ total := ⟨"", ""⟩, groups := [⟨["111"], ⟨"2.5", "USD"⟩⟩] }]
    nextPageToken := some "U"
    dimensionValueAttributes := some [⟨"111", some "Example System 1A"⟩] }

/-- Client serving pages 1 (`chainPage1`) and 2 (`midPage`) successfully
but failing the fetch of page 3 (token `"U"`). -/
def deepChainClient : CEClient := fun t =>
  match t with
  | none => some chainPage1
  | some "T" => some midPage
  | _ => none

/-- A BY_ACCOUNT page with one group whose id matches no attribute entry. -/
def droppedRowPage : CEResponse :=
  { resultsByTime := [{ total := ⟨"", ""⟩, groups :=
      [⟨["111111111111"], ⟨"1.5", "USD"⟩⟩] }]
    nextPageToken := none
    dimensionValueAttributes := some [] }

/-- Client serving only `droppedRowPage`. -/
def droppedRowClient : CEClient := fun t =>
  match t with
  | none => some droppedRowPage
  | _ => none

/-- A BY_ACCOUNT page whose single group matches two attribute entries (one
without a description); a third entry matches nothing. -/
def dupAttrPage : CEResponse :=
  { resultsByTime := [{ total := ⟨"", ""⟩, groups := [⟨["111"], ⟨"1.5", "USD"⟩⟩] }]
    nextPageToken := none
    dimensionValueAttributes := some [⟨"111", none⟩, ⟨"111", some "dup"⟩, ⟨"222", some "x"⟩] }

/-- Client serving only `dupAttrPage`. -/
def dupAttrClient : CEClient := fun t =>
  match t with
  | none => some dupAttrPage
  | _ => none

/-- A total-billing response: one bucket, total `1.23456 USD` (spec §8). -/
def totalPage : CEResponse :=
  { resultsByTime := [{ total := ⟨"1.23456", "USD"⟩, groups := [] }]
    nextPageToken := none
    dimensionValueAttributes := none }

/-- A fully-populated secret. -/
def okSecret : SlackSecretValue :=
  { token := some "xxxx-xxxxxxxxx-xxxx", channel := some "example-channel" }

/-- A well-configured environment: secret name and secret present, total
and grouped billing both answered, root post succeeding. -/
def baseEnv : HandlerEnv :=
  { slackSecretName := some "example/slack/webhook"
    secretValue := some okSecret
    totalResp := some totalPage
    groupedClient := chainClient
    rootPostOk := true
    rootPostTs := some "1700000000.000100" }

/-- Like `baseEnv` but every billing call fails. -/
def degradedEnv : HandlerEnv :=
  { baseEnv with totalResp := none, groupedClient := fun _ => none }

/-- Like `baseEnv` but the root Slack post reports `ok: false`. -/
def rootFailEnv : HandlerEnv :=
  { baseEnv with rootPostOk := false }

/-- Like `baseEnv` but with no `SLACK_SECRET_NAME` configured. -/
def envNoSecretName : HandlerEnv :=
  { baseEnv with slackSecretName := none }

/-- Like `baseEnv` but the resolved secret lacks the `channel` field. -/
def envNoChannel : HandlerEnv :=
  { baseEnv with secretValue := some { token := some "xxxx-xxxxxxxxx-xxxx", channel := none } }

/-- Client answering the first (and only) service page `chainPage2`. -/
def onePageClient : CEClient := fun t =>
  match t with
  | none => some chainPage2
  | _ => none

/-- Like `baseEnv` but with the single-page service client. -/
def onePageEnv : HandlerEnv :=
  { baseEnv with groupedClient := onePageClient }

/-! ### Calendar lemmas -/

theorem daysInMonth_ge (y m : Int) : 28 ≤ daysInMonth y m := by
  unfold daysInMonth
  split
  · split <;> omega
  · split <;> omega

theorem normMonthAux_eval (f : Nat) (y m : Int) (h0 : 0 ≤ m) (h1 : m ≤ 11)
    (hf : 1 ≤ f) : normMonthAux f y m = (y, m) := by
  match f with
  | 0 => omega
  | f + 1 =>
    unfold normMonthAux
    rw [if_neg (by omega), if_neg (by omega)]

theorem normDayAux_inrange (f : Nat) (y m d : Int) (h1 : 1 ≤ d)
    (h2 : d ≤ daysInMonth y m) (hf : 1 ≤ f) : normDayAux f y m d = ⟨y, m, d⟩ := by
  match f with
  | 0 => omega
  | f + 1 =>
    unfold normDayAux
    rw [if_neg (by omega), if_neg (by omega)]

theorem normDayAux_zero (f : Nat) (y m : Int) (hf : 2 ≤ f) :
    normDayAux f y m 0 =
      ⟨(prevMonth y m).1, (prevMonth y m).2,
        daysInMonth (prevMonth y m).1 (prevMonth y m).2⟩ := by
  match f with
  | 0 | 1 => omega
  | f + 2 =>
    have hge := daysInMonth_ge (prevMonth y m).1 (prevMonth y m).2
    unfold normDayAux
    rw [if_pos (by omega)]
    rw [normDayAux_inrange (f + 1) _ _ _ (by omega) (by omega) (by omega)]
    simp

theorem mkDate_inrange (y m d : Int) (h0 : 0 ≤ m) (h1 : m ≤ 11)
    (hd1 : 1 ≤ d) (hd2 : d ≤ daysInMonth y m) : mkDate y m d = ⟨y, m, d⟩ := by
  unfold mkDate
  rw [normMonthAux_eval _ y m h0 h1 (by omega)]
  exact normDayAux_inrange _ y m d hd1 hd2 (by omega)

theorem mkDate_zero (y m : Int) (h0 : 0 ≤ m) (h1 : m ≤ 11) :
    mkDate y m 0 =
      ⟨(prevMonth y m).1, (prevMonth y m).2,
        daysInMonth (prevMonth y m).1 (prevMonth y m).2⟩ := by
  unfold mkDate
  rw [normMonthAux_eval _ y m h0 h1 (by omega)]
  exact normDayAux_zero _ y m (by omega)

theorem mkDate_prev_first (y m : Int) (h0 : 0 ≤ m) (h1 : m ≤ 11) :
    mkDate y (m - 1) 1 = ⟨(prevMonth y m).1, (prevMonth y m).2, 1⟩ := by
  by_cases hm : m = 0
  · subst hm
    unfold mkDate prevMonth
    norm_num [normMonthAux]
    exact normDayAux_inrange _ _ _ _ (by omega)
      (by have := daysInMonth_ge (y - 1) 11; omega) (by omega)
  · have hp : prevMonth y m = (y, m - 1) := by unfold prevMonth; rw [if_neg hm]
    rw [hp]
    exact mkDate_inrange y (m - 1) 1 (by omega) (by omega) (by omega)
      (by have := daysInMonth_ge y (m - 1); omega)

/-- C1: for every well-formed instant `now`, `getDateRange` returns exactly
the spec's range — on the 1st of a month, the whole previous calendar month
(first through last day inclusive); on day `N > 1` of month `M`, the first
of `M` through the `(N-1)`th of `M` — each endpoint formatted by
`dateFormatString` as ISO `YYYY-MM-DD`. -/
theorem getDateRange_matches_spec (now : JSDate) (h : ValidDate now) :
    getDateRange now =
      ⟨dateFormatString (specComputeRange now).1,
        dateFormatString (specComputeRange now).2⟩ := by
  obtain ⟨h0, h1, h2, h3⟩ := h
  have hge := daysInMonth_ge now.year now.month
  unfold getDateRange specComputeRange
  by_cases hd : now.day = 1
  · rw [if_pos hd, if_pos hd,
      mkDate_prev_first now.year now.month h0 h1,
      mkDate_zero now.year now.month h0 h1]
  · rw [if_neg hd, if_neg hd,
      mkDate_inrange now.year now.month 1 h0 h1 (by omega) (by omega),
      mkDate_inrange now.year now.month (now.day - 1) h0 h1 (by omega) (by omega)]

/-- C1 witness: at `now = 2023-02-23` (month index 1), the range is
`2023-02-01 .. 2023-02-22`. -/
theorem getDateRange_matches_spec_witness :
    ValidDate ⟨2023, 1, 23⟩ ∧
      getDateRange ⟨2023, 1, 23⟩ =
        ⟨dateFormatString (specComputeRange ⟨2023, 1, 23⟩).1,
          dateFormatString (specComputeRange ⟨2023, 1, 23⟩).2⟩ :=
  ⟨by decide, getDateRange_matches_spec ⟨2023, 1, 23⟩ (by decide)⟩

/-! ### Fetcher lemmas -/

theorem getServiceBilling_succ (client : CEClient) (fuel : Nat) (tok : Option String) :
    getServiceBilling client (fuel + 1) tok =
      match client tok with
      | none => none
      | some data =>
        match data.resultsByTime with
        | [r] =>
          if jsTruthy data.nextPageToken then
            match getServiceBilling client fuel data.nextPageToken with
            | some nextBillings => some (serviceRows r.groups ++ nextBillings)
            | none => some (serviceRows r.groups)
          else some (serviceRows r.groups)
        | _ => none := rfl

theorem getAccountBillings_succ (client : CEClient) (fuel : Nat) (tok : Option String) :
    getAccountBillings client (fuel + 1) tok =
      match client tok with
      | none => none
      | some data =>
        match data.resultsByTime with
        | [r] =>
          if jsTruthy data.nextPageToken then
            match getAccountBillings client fuel data.nextPageToken with
            | some nextBillings =>
              some (accountRows r.groups (data.dimensionValueAttributes.getD []) ++ nextBillings)
            | none => some (accountRows r.groups (data.dimensionValueAttributes.getD []))
          else some (accountRows r.groups (data.dimensionValueAttributes.getD []))
        | _ => none := rfl

/-- C4: along a chain of successful pages (each with exactly one result
bucket) linked by continuation tokens, the grouped fetch follows the chain
to its end and returns the concatenation of all pages' rows in page order,
each page contributing its rows in API return order, with no omission. -/
theorem getServiceBilling_paginates (client : CEClient) (pages : List CEResponse) :
    ∀ (t : Option String) (fuel : Nat),
      IsChain client t pages →
      pages.all (fun p => p.resultsByTime.length == 1) = true →
      pages.length ≤ fuel →
      getServiceBilling client fuel t = some (pages.flatMap servicePageRows) := by
  induction pages with
  | nil => intro t fuel hchain _ _; simp [IsChain] at hchain
  | cons p rest ih =>
    intro t fuel hchain hb hfuel
    match fuel with
    | 0 => simp at hfuel
    | f + 1 =>
      simp only [List.all_cons, Bool.and_eq_true, beq_iff_eq] at hb
      obtain ⟨hb1, hbrest⟩ := hb
      obtain ⟨r, hr⟩ := List.length_eq_one.mp hb1
      cases rest with
      | nil =>
        simp only [IsChain] at hchain
        obtain ⟨hcl, htok⟩ := hchain
        rw [getServiceBilling_succ, hcl]
        simp [hr, htok, servicePageRows]
      | cons q rest2 =>
        simp only [IsChain] at hchain
        obtain ⟨hcl, htok, hrest⟩ := hchain
        have hfuel2 : (q :: rest2).length ≤ f := by
          simp only [List.length_cons] at hfuel ⊢; omega
        rw [getServiceBilling_succ, hcl]
        simp [hr, htok, ih p.nextPageToken f hrest
          (by simpa using hbrest) hfuel2, servicePageRows]

/-- C4 witness: the two-page chain of the spec's end-to-end scenario
concatenates to three rows in order. -/
theorem getServiceBilling_paginates_witness :
    IsChain chainClient none [chainPage1, chainPage2] ∧
      [chainPage1, chainPage2].all (fun p => p.resultsByTime.length == 1) = true ∧
      [chainPage1, chainPage2].length ≤ 2 ∧
      getServiceBilling chainClient 2 none =
        some ([chainPage1, chainPage2].flatMap servicePageRows) :=
  ⟨⟨rfl, rfl, rfl, rfl⟩, by decide, by decide,
    getServiceBilling_paginates chainClient [chainPage1, chainPage2] none 2
      ⟨rfl, rfl, rfl, rfl⟩ (by decide) (by decide)⟩

/-- C2 counterexample: with a two-page chain whose second page fetch fails
(`brokenTailClient (some "T") = none`), the grouped fetch does not return
absent — it returns the two rows already accumulated from the first page, a
partial sequence, refuting "never a partial sequence of the rows already
accumulated from earlier pages". -/
theorem getServiceBilling_tail_failure_cex :
    brokenTailClient (some "T") = none ∧
      jsTruthy chainPage1.nextPageToken = true ∧
      getServiceBilling brokenTailClient 2 none =
        some [⟨"AWS CloudTrail", "USD", "0"⟩, ⟨"AWS Config", "USD", "0.012"⟩] ∧
      getServiceBilling brokenTailClient 2 none ≠ none :=
  ⟨rfl, rfl, rfl, by decide⟩

theorem getServiceBilling_absent_of_bad_page (client : CEClient) (t : Option String)
    (fuel : Nat) (hbad : BadPageAt client t) :
    getServiceBilling client (fuel + 1) t = none := by
  rcases hbad with h | ⟨p, hp, hlen⟩
  · rw [getServiceBilling_succ, h]
  · rw [getServiceBilling_succ, hp]
    match hres : p.resultsByTime with
    | [] => simp [hres]
    | [r] => exact absurd (by rw [hres]; rfl) hlen
    | r1 :: r2 :: rs => simp [hres]

theorem getAccountBillings_absent_of_bad_page (client : CEClient) (t : Option String)
    (fuel : Nat) (hbad : BadPageAt client t) :
    getAccountBillings client (fuel + 1) t = none := by
  rcases hbad with h | ⟨p, hp, hlen⟩
  · rw [getAccountBillings_succ, h]
  · rw [getAccountBillings_succ, hp]
    match hres : p.resultsByTime with
    | [] => simp [hres]
    | [r] => exact absurd (by rw [hres]; rfl) hlen
    | r1 :: r2 :: rs => simp [hres]

theorem getServiceBilling_prefix_rows (client : CEClient) (pages : List CEResponse) :
    ∀ (t t' : Option String) (fuel : Nat),
      IsChainUpto client t pages t' →
      pages.all (fun p => p.resultsByTime.length == 1) = true →
      BadPageAt client t' →
      pages.length < fuel →
      getServiceBilling client fuel t = some (pages.flatMap servicePageRows) := by
  induction pages with
  | nil => intro t t' fuel hchain _ _ _; simp [IsChainUpto] at hchain
  | cons p rest ih =>
    intro t t' fuel hchain hb hbad hfuel
    match fuel with
    | 0 => exact absurd hfuel (Nat.not_lt_zero _)
    | f + 1 =>
      simp only [List.all_cons, Bool.and_eq_true, beq_iff_eq] at hb
      obtain ⟨hb1, hbrest⟩ := hb
      obtain ⟨r, hr⟩ := List.length_eq_one.mp hb1
      cases rest with
      | nil =>
        simp only [IsChainUpto] at hchain
        obtain ⟨hcl, htok, htok'⟩ := hchain
        obtain ⟨f2, rfl⟩ : ∃ f2, f = f2 + 1 := by
          simp only [List.length_cons, List.length_nil] at hfuel
          exact ⟨f - 1, by omega⟩
        have hnone := getServiceBilling_absent_of_bad_page client t' f2 hbad
        rw [getServiceBilling_succ, hcl]
        simp [hr, htok, htok', hnone, servicePageRows]
      | cons q rest2 =>
        simp only [IsChainUpto] at hchain
        obtain ⟨hcl, htok, hrest⟩ := hchain
        have hfuel2 : (q :: rest2).length < f := by
          simp only [List.length_cons] at hfuel ⊢; omega
        rw [getServiceBilling_succ, hcl]
        simp [hr, htok, ih p.nextPageToken t' f hrest
          (by simpa using hbrest) hbad hfuel2, servicePageRows]

theorem getAccountBillings_prefix_rows (client : CEClient) (pages : List CEResponse) :
    ∀ (t t' : Option String) (fuel : Nat),
      IsChainUpto client t pages t' →
      pages.all (fun p => p.resultsByTime.length == 1) = true →
      BadPageAt client t' →
      pages.length < fuel →
      getAccountBillings client fuel t = some (pages.flatMap accountPageRows) := by
  induction pages with
  | nil => intro t t' fuel hchain _ _ _; simp [IsChainUpto] at hchain
  | cons p rest ih =>
    intro t t' fuel hchain hb hbad hfuel
    match fuel with
    | 0 => exact absurd hfuel (Nat.not_lt_zero _)
    | f + 1 =>
      simp only [List.all_cons, Bool.and_eq_true, beq_iff_eq] at hb
      obtain ⟨hb1, hbrest⟩ := hb
      obtain ⟨r, hr⟩ := List.length_eq_one.mp hb1
      cases rest with
      | nil =>
        simp only [IsChainUpto] at hchain
        obtain ⟨hcl, htok, htok'⟩ := hchain
        obtain ⟨f2, rfl⟩ : ∃ f2, f = f2 + 1 := by
          simp only [List.length_cons, List.length_nil] at hfuel
          exact ⟨f - 1, by omega⟩
        have hnone := getAccountBillings_absent_of_bad_page client t' f2 hbad
        rw [getAccountBillings_succ, hcl]
        simp [hr, htok, htok', hnone, accountPageRows]
      | cons q rest2 =>
        simp only [IsChainUpto] at hchain
        obtain ⟨hcl, htok, hrest⟩ := hchain
        have hfuel2 : (q :: rest2).length < f := by
          simp only [List.length_cons] at hfuel ⊢; omega
        rw [getAccountBillings_succ, hcl]
        simp [hr, htok, ih p.nextPageToken t' f hrest
          (by simpa using hbrest) hbad hfuel2, accountPageRows]

/-- C2 amended: for both grouping modes, a failed page fetch (or a
result-bucket count other than one) makes the grouped fetch return absent
only when it hits the *first* page of the chain; when the failing page sits
after a successful prefix of pages — at any depth — the fetch returns
exactly the concatenation of the prefix pages' rows, a partial sequence,
because the source falls through to `return billings` when the recursive
call yields `undefined`. -/
theorem groupedFetch_failure_behavior (client : CEClient) (t : Option String) (fuel : Nat) :
    (BadPageAt client t →
      getServiceBilling client (fuel + 1) t = none ∧
        getAccountBillings client (fuel + 1) t = none) ∧
    (∀ pages t', IsChainUpto client t pages t' →
      pages.all (fun p => p.resultsByTime.length == 1) = true →
      BadPageAt client t' →
      pages.length < fuel + 1 →
      getServiceBilling client (fuel + 1) t = some (pages.flatMap servicePageRows) ∧
        getAccountBillings client (fuel + 1) t = some (pages.flatMap accountPageRows)) :=
  ⟨fun hbad =>
    ⟨getServiceBilling_absent_of_bad_page client t fuel hbad,
      getAccountBillings_absent_of_bad_page client t fuel hbad⟩,
    fun pages t' hchain hb hbad hfuel =>
      ⟨getServiceBilling_prefix_rows client pages t t' (fuel + 1) hchain hb hbad hfuel,
        getAccountBillings_prefix_rows client pages t t' (fuel + 1) hchain hb hbad hfuel⟩⟩

/-- C2 witness: a first-page failure yields absent in both modes, and on a
three-page chain whose third page fetch fails, both fetchers return the
rows of pages 1–2 — a partial sequence, not absent. -/
theorem groupedFetch_failure_behavior_witness :
    BadPageAt brokenTailClient (some "T") ∧
      (getServiceBilling brokenTailClient 1 (some "T") = none ∧
        getAccountBillings brokenTailClient 1 (some "T") = none) ∧
      IsChainUpto deepChainClient none [chainPage1, midPage] (some "U") ∧
      [chainPage1, midPage].all (fun p => p.resultsByTime.length == 1) = true ∧
      BadPageAt deepChainClient (some "U") ∧
      [chainPage1, midPage].length < 3 ∧
      (getServiceBilling deepChainClient 3 none =
          some ([chainPage1, midPage].flatMap servicePageRows) ∧
        getAccountBillings deepChainClient 3 none =
          some ([chainPage1, midPage].flatMap accountPageRows)) :=
  ⟨Or.inl rfl,
    (groupedFetch_failure_behavior brokenTailClient (some "T") 0).1 (Or.inl rfl),
    ⟨rfl, rfl, rfl, rfl, rfl⟩,
    by decide,
    Or.inl rfl,
    by decide,
    (groupedFetch_failure_behavior deepChainClient none 2).2 [chainPage1, midPage]
      (some "U") ⟨rfl, rfl, rfl, rfl, rfl⟩ (by decide) (Or.inl rfl) (by decide)⟩

theorem filterMap_guard_eq_map_filter {α β : Type} (l : List α) (c : α → Bool) (f : α → β) :
    l.filterMap (fun a => if c a then some (f a) else none) = (l.filter c).map f := by
  induction l with
  | nil => rfl
  | cons a l ih =>
    by_cases h : c a <;> simp [List.filterMap_cons, List.filter_cons, h, ih]

/-- C3 counterexample: a BY_ACCOUNT page whose only billing group (account
id `111111111111`) matches no entry of the attribute list produces an empty
output — the row is not "still included using only the raw id", it is
dropped entirely. -/
theorem getAccountBillings_unmatched_dropped_cex :
    droppedRowPage.resultsByTime =
      [⟨⟨"", ""⟩, [⟨["111111111111"], ⟨"1.5", "USD"⟩⟩]⟩] ∧
      droppedRowPage.dimensionValueAttributes.getD [] = [] ∧
      getAccountBillings droppedRowClient 1 none = some [] :=
  ⟨rfl, rfl, rfl⟩

/-- C3 amended: for a successful single-bucket BY_ACCOUNT page, a row
appears in the output exactly for each (group, attribute) pair with
`Keys[0] = attr.Value`, labeled `"<id> (<description>)"`; a group whose id
matches no attribute entry contributes nothing (it is omitted, not kept
with the raw id). -/
theorem getAccountBillings_match_characterization (client : CEClient)
    (t : Option String) (fuel : Nat) (p : CEResponse) (r : TimeResult)
    (hcl : client t = some p) (hr : p.resultsByTime = [r])
    (htok : jsTruthy p.nextPageToken = false) :
    ∃ rows, getAccountBillings client (fuel + 1) t = some rows ∧
      ∀ b, b ∈ rows ↔ ∃ g ∈ r.groups, ∃ a ∈ p.dimensionValueAttributes.getD [],
        g.keys.head? = some a.value ∧
        b = { account := a.value ++ " (" ++ a.description.getD "" ++ ")"
              amount := g.amortizedCost.amount
              unit := g.amortizedCost.unit } := by
  refine ⟨accountRows r.groups (p.dimensionValueAttributes.getD []), ?_, ?_⟩
  · rw [getAccountBillings_succ, hcl]
    simp [hr, htok]
  · intro b
    simp only [accountRows, List.mem_flatMap, List.mem_filterMap,
      Option.ite_none_right_eq_some, Option.some.injEq, beq_iff_eq]
    constructor
    · rintro ⟨g, hg, a, ha, hmatch, hb⟩
      exact ⟨g, hg, a, ha, hmatch, hb.symm⟩
    · rintro ⟨g, hg, a, ha, hmatch, hb⟩
      exact ⟨g, hg, a, ha, hmatch, hb.symm⟩

/-- C3 witness: on `droppedRowPage` the characterization instantiates with
an empty row list (its only group matches no attribute). -/
theorem getAccountBillings_match_characterization_witness :
    droppedRowClient none = some droppedRowPage ∧
      droppedRowPage.resultsByTime =
        [⟨⟨"", ""⟩, [⟨["111111111111"], ⟨"1.5", "USD"⟩⟩]⟩] ∧
      jsTruthy droppedRowPage.nextPageToken = false ∧
      ∃ rows, getAccountBillings droppedRowClient 1 none = some rows ∧
        ∀ b, b ∈ rows ↔ ∃ g ∈ (⟨⟨"", ""⟩,
            [⟨["111111111111"], ⟨"1.5", "USD"⟩⟩]⟩ : TimeResult).groups,
          ∃ a ∈ droppedRowPage.dimensionValueAttributes.getD [],
          g.keys.head? = some a.value ∧
          b = { account := a.value ++ " (" ++ a.description.getD "" ++ ")"
                amount := g.amortizedCost.amount
                unit := g.amortizedCost.unit } :=
  ⟨rfl, rfl, rfl,
    getAccountBillings_match_characterization droppedRowClient none 0
      droppedRowPage _ rfl rfl rfl⟩

/-- C10: for a successful single-bucket BY_ACCOUNT page, the output has
exactly one row per (group, matching attribute) pair — it equals, group by
group, the matching attributes mapped to rows, so a group matching `k`
entries yields `k` rows (duplicate entries duplicate the row), the total
length is the sum of the per-group match counts, and an attribute entry
with no description labels its row `"<id> ()"`. -/
theorem getAccountBillings_row_per_matching_pair (client : CEClient)
    (t : Option String) (fuel : Nat) (p : CEResponse) (r : TimeResult)
    (hcl : client t = some p) (hr : p.resultsByTime = [r])
    (htok : jsTruthy p.nextPageToken = false) :
    ∃ rows, getAccountBillings client (fuel + 1) t = some rows ∧
      rows = r.groups.flatMap (fun g =>
        ((p.dimensionValueAttributes.getD []).filter
          (fun a => g.keys.head? == some a.value)).map (fun a =>
            { account := a.value ++ " (" ++ a.description.getD "" ++ ")"
              amount := g.amortizedCost.amount
              unit := g.amortizedCost.unit })) ∧
      rows.length = (r.groups.map (fun g =>
        ((p.dimensionValueAttributes.getD []).filter
          (fun a => g.keys.head? == some a.value)).length)).sum ∧
      ∀ g ∈ r.groups, ∀ a ∈ p.dimensionValueAttributes.getD [],
        g.keys.head? = some a.value → a.description = none →
        ({ account := a.value ++ " ()"
           amount := g.amortizedCost.amount
           unit := g.amortizedCost.unit } : AccountBilling) ∈ rows := by
  have hshape : accountRows r.groups (p.dimensionValueAttributes.getD []) =
      r.groups.flatMap (fun g =>
        ((p.dimensionValueAttributes.getD []).filter
          (fun a => g.keys.head? == some a.value)).map (fun a =>
            { account := a.value ++ " (" ++ a.description.getD "" ++ ")"
              amount := g.amortizedCost.amount
              unit := g.amortizedCost.unit })) := by
    unfold accountRows
    refine congrArg _ (funext fun g => ?_)
    exact filterMap_guard_eq_map_filter _ _ _
  refine ⟨accountRows r.groups (p.dimensionValueAttributes.getD []), ?_, hshape, ?_, ?_⟩
  · rw [getAccountBillings_succ, hcl]
    simp [hr, htok]
  · rw [hshape, List.length_flatMap]
    exact congrArg (fun f => (List.map f r.groups).sum)
      (funext fun g => by simp [Function.comp])
  · intro g hg a ha hmatch hdesc
    rw [hshape]
    rw [List.mem_flatMap]
    refine ⟨g, hg, ?_⟩
    rw [List.mem_map]
    refine ⟨a, List.mem_filter.mpr ⟨ha, by simp [hmatch]⟩, ?_⟩
    have hda : a.description.getD "" = "" := by simp [hdesc]
    rw [hda, String.append_empty, String.append_assoc]
    rfl

/-- C10 witness: the page whose single group (id `111`) matches two
attribute entries — the first without a description — yields exactly the
two rows `"111 ()"` and `"111 (dup)"`. -/
theorem getAccountBillings_row_per_matching_pair_witness :
    dupAttrClient none = some dupAttrPage ∧
      dupAttrPage.resultsByTime =
        [⟨⟨"", ""⟩, [⟨["111"], ⟨"1.5", "USD"⟩⟩]⟩] ∧
      jsTruthy dupAttrPage.nextPageToken = false ∧
      (∃ rows, getAccountBillings dupAttrClient 1 none = some rows ∧
        rows = (⟨⟨"", ""⟩, [⟨["111"], ⟨"1.5", "USD"⟩⟩]⟩ : TimeResult).groups.flatMap (fun g =>
          ((dupAttrPage.dimensionValueAttributes.getD []).filter
            (fun a => g.keys.head? == some a.value)).map (fun a =>
              { account := a.value ++ " (" ++ a.description.getD "" ++ ")"
                amount := g.amortizedCost.amount
                unit := g.amortizedCost.unit })) ∧
        rows.length = ((⟨⟨"", ""⟩, [⟨["111"], ⟨"1.5", "USD"⟩⟩]⟩ : TimeResult).groups.map (fun g =>
          ((dupAttrPage.dimensionValueAttributes.getD []).filter
            (fun a => g.keys.head? == some a.value)).length)).sum ∧
        ∀ g ∈ (⟨⟨"", ""⟩, [⟨["111"], ⟨"1.5", "USD"⟩⟩]⟩ : TimeResult).groups,
          ∀ a ∈ dupAttrPage.dimensionValueAttributes.getD [],
          g.keys.head? = some a.value → a.description = none →
          ({ account := a.value ++ " ()"
             amount := g.amortizedCost.amount
             unit := g.amortizedCost.unit } : AccountBilling) ∈ rows) ∧
      getAccountBillings dupAttrClient 1 none =
        some [⟨"111 ()", "1.5", "USD"⟩, ⟨"111 (dup)", "1.5", "USD"⟩] :=
  ⟨rfl, rfl, rfl,
    getAccountBillings_row_per_matching_pair dupAttrClient none 0
      dupAttrPage _ rfl rfl rfl, rfl⟩

/-! ### Handler theorems -/

/-- C5: once validation passes (secret name, event type, secret fields),
the run's outcome is `'OK'` for every billing behavior — a failed or
empty/multi-bucket total or detail fetch leaves the affected figure absent
but the run still reaches the notify step (the root post is made) and
succeeds. -/
theorem handler_succeeds_despite_billing_failures (env : HandlerEnv)
    (eventType : String) (now : JSDate) (fuel : Nat)
    (hname : jsTruthy env.slackSecretName = true)
    (htype : eventType = "accounts" ∨ eventType = "services")
    (htoken : jsTruthy (env.secretValue.bind SlackSecretValue.token) = true)
    (hchannel : jsTruthy (env.secretValue.bind SlackSecretValue.channel) = true) :
    (handler env eventType now fuel).outcome = .ok "OK" ∧
      (handler env eventType now fuel).rootPost.isSome = true ∧
      (env.totalResp = none → (handler env eventType now fuel).totalBilling = none) := by
  rcases htype with rfl | rfl <;>
    refine ⟨?_, ?_, fun h => ?_⟩ <;>
    simp [handler, hname, htoken, hchannel] <;>
    simp [h, getTotalBilling]

/-- C5 witness: with every billing call failing, the run still returns
`'OK'`, posts the root message, and carries an absent total. -/
theorem handler_succeeds_despite_billing_failures_witness :
    jsTruthy degradedEnv.slackSecretName = true ∧
      ("services" = "accounts" ∨ "services" = "services") ∧
      jsTruthy (degradedEnv.secretValue.bind SlackSecretValue.token) = true ∧
      jsTruthy (degradedEnv.secretValue.bind SlackSecretValue.channel) = true ∧
      ((handler degradedEnv "services" ⟨2023, 1, 23⟩ 2).outcome = .ok "OK" ∧
        (handler degradedEnv "services" ⟨2023, 1, 23⟩ 2).rootPost.isSome = true ∧
        (degradedEnv.totalResp = none →
          (handler degradedEnv "services" ⟨2023, 1, 23⟩ 2).totalBilling = none)) :=
  ⟨rfl, Or.inr rfl, rfl, rfl,
    handler_succeeds_despite_billing_failures degradedEnv "services" ⟨2023, 1, 23⟩ 2
      rfl (Or.inr rfl) rfl rfl⟩

/-- C6: in the notify step, the threaded detail post is made exactly when
the root post reports `ok`; when the root post fails the detail post is
skipped with no distinct error and the run still returns `'OK'`. -/
theorem handler_detail_post_iff_root_ok (env : HandlerEnv)
    (eventType : String) (now : JSDate) (fuel : Nat)
    (hname : jsTruthy env.slackSecretName = true)
    (htype : eventType = "accounts" ∨ eventType = "services")
    (htoken : jsTruthy (env.secretValue.bind SlackSecretValue.token) = true)
    (hchannel : jsTruthy (env.secretValue.bind SlackSecretValue.channel) = true) :
    (handler env eventType now fuel).detailPost.isSome = env.rootPostOk ∧
      (handler env eventType now fuel).outcome = .ok "OK" := by
  rcases htype with rfl | rfl <;> cases hro : env.rootPostOk <;>
    simp [handler, hname, htoken, hchannel, hro]

/-- C6 witness: with the root post reporting failure, no detail post is
made and the run still returns `'OK'`. -/
theorem handler_detail_post_iff_root_ok_witness :
    jsTruthy rootFailEnv.slackSecretName = true ∧
      ("services" = "accounts" ∨ "services" = "services") ∧
      jsTruthy (rootFailEnv.secretValue.bind SlackSecretValue.token) = true ∧
      jsTruthy (rootFailEnv.secretValue.bind SlackSecretValue.channel) = true ∧
      ((handler rootFailEnv "services" ⟨2023, 1, 23⟩ 2).detailPost.isSome
          = rootFailEnv.rootPostOk ∧
        (handler rootFailEnv "services" ⟨2023, 1, 23⟩ 2).outcome = .ok "OK") :=
  ⟨rfl, Or.inr rfl, rfl, rfl,
    handler_detail_post_iff_root_ok rootFailEnv "services" ⟨2023, 1, 23⟩ 2
      rfl (Or.inr rfl) rfl rfl⟩

/-- C7: with the rest of the configuration valid, the run fails (throws,
with an error message) exactly when the event `type` is not the
case-sensitive string `"accounts"` or `"services"`; the empty string and
any other string fail validation, the two exact values pass. -/
theorem handler_fails_iff_type_invalid (env : HandlerEnv)
    (eventType : String) (now : JSDate) (fuel : Nat)
    (hname : jsTruthy env.slackSecretName = true)
    (htoken : jsTruthy (env.secretValue.bind SlackSecretValue.token) = true)
    (hchannel : jsTruthy (env.secretValue.bind SlackSecretValue.channel) = true) :
    (∃ msg, (handler env eventType now fuel).outcome = .error msg) ↔
      ¬(eventType = "accounts" ∨ eventType = "services") := by
  constructor
  · intro hex hvalid
    obtain ⟨msg, hmsg⟩ := hex
    rcases hvalid with rfl | rfl <;>
      simp [handler, hname, htoken, hchannel] at hmsg
  · intro hinvalid
    have h1 : ¬ eventType = "accounts" := fun h => hinvalid (Or.inl h)
    have h2 : ¬ eventType = "services" := fun h => hinvalid (Or.inr h)
    by_cases he : eventType = ""
    · exact ⟨"missing input variable type", by simp [handler, hname, he, failedRun]⟩
    · exact ⟨"invalid input variable Type. Valid values are accounts or services.",
        by simp [handler, hname, he, h1, h2, failedRun]⟩

/-- C7 witness: the unrecognized type `"Miss"` makes the run fail. -/
theorem handler_fails_iff_type_invalid_witness :
    jsTruthy baseEnv.slackSecretName = true ∧
      jsTruthy (baseEnv.secretValue.bind SlackSecretValue.token) = true ∧
      jsTruthy (baseEnv.secretValue.bind SlackSecretValue.channel) = true ∧
      ((∃ msg, (handler baseEnv "Miss" ⟨2023, 1, 23⟩ 2).outcome = .error msg) ↔
        ¬("Miss" = "accounts" ∨ "Miss" = "services")) :=
  ⟨rfl, rfl, rfl,
    handler_fails_iff_type_invalid baseEnv "Miss" ⟨2023, 1, 23⟩ 2 rfl rfl rfl⟩

/-- C8: a run with no configured secret name fails with the
`SLACK_SECRET_NAME` error message, and a run whose resolved secret lacks
the `token` or the `channel` field fails with the message
`"Slack secret must contain token and channel."`, which names both
required fields. -/
theorem handler_secret_validation (env : HandlerEnv)
    (eventType : String) (now : JSDate) (fuel : Nat) :
    (jsTruthy env.slackSecretName = false →
      (handler env eventType now fuel).outcome =
        .error "missing environment variable SLACK_SECRET_NAME.") ∧
      (jsTruthy env.slackSecretName = true →
        (jsTruthy (env.secretValue.bind SlackSecretValue.token) = false ∨
          jsTruthy (env.secretValue.bind SlackSecretValue.channel) = false) →
        (eventType = "accounts" ∨ eventType = "services") →
        (handler env eventType now fuel).outcome =
          .error "Slack secret must contain token and channel.") ∧
      containsSub "Slack secret must contain token and channel." "token" = true ∧
      containsSub "Slack secret must contain token and channel." "channel" = true := by
  refine ⟨?_, ?_, by decide, by decide⟩
  · intro h
    simp [handler, h, failedRun]
  · intro hname hmiss htype
    rcases htype with rfl | rfl <;> rcases hmiss with hm | hm <;>
      simp [handler, hname, hm, failedRun]

/-- C8 witness: a run with no secret name fails with the environment
message; a run whose secret has no `channel` fails with the message naming
both `token` and `channel`. -/
theorem handler_secret_validation_witness :
    jsTruthy envNoSecretName.slackSecretName = false ∧
      (handler envNoSecretName "services" ⟨2023, 1, 23⟩ 2).outcome =
        .error "missing environment variable SLACK_SECRET_NAME." ∧
      jsTruthy envNoChannel.slackSecretName = true ∧
      jsTruthy (envNoChannel.secretValue.bind SlackSecretValue.channel) = false ∧
      (handler envNoChannel "services" ⟨2023, 1, 23⟩ 2).outcome =
        .error "Slack secret must contain token and channel." ∧
      containsSub "Slack secret must contain token and channel." "token" = true ∧
      containsSub "Slack secret must contain token and channel." "channel" = true :=
  ⟨rfl,
    (handler_secret_validation envNoSecretName "services" ⟨2023, 1, 23⟩ 2).1 rfl,
    rfl, rfl,
    (handler_secret_validation envNoChannel "services" ⟨2023, 1, 23⟩ 2).2.1
      rfl (Or.inr rfl) (Or.inr rfl),
    (handler_secret_validation envNoChannel "services" ⟨2023, 1, 23⟩ 2).2.2.1,
    (handler_secret_validation envNoChannel "services" ⟨2023, 1, 23⟩ 2).2.2.2⟩

/-- C9: billing amounts are passed through end to end as the billing API's
own strings — the aggregated total's amount, each detail row's amount, and
the amount rendered in the root message's attachment text are exactly the
strings of the response, with no numeric parsing or reformatting. -/
theorem handler_amount_passthrough (env : HandlerEnv) (now : JSDate) (fuel : Nat)
    (tp gp : CEResponse) (tr gr : TimeResult)
    (hname : jsTruthy env.slackSecretName = true)
    (htoken : jsTruthy (env.secretValue.bind SlackSecretValue.token) = true)
    (hchannel : jsTruthy (env.secretValue.bind SlackSecretValue.channel) = true)
    (htp : env.totalResp = some tp) (htr : tp.resultsByTime = [tr])
    (hgp : env.groupedClient none = some gp) (hgr : gp.resultsByTime = [gr])
    (hgtok : jsTruthy gp.nextPageToken = false) :
    (handler env "services" now (fuel + 1)).totalBilling =
        some { unit := tr.total.unit, amount := tr.total.amount } ∧
      (handler env "services" now (fuel + 1)).rootPost = some
        { text := "AWS Cost Reports (" ++ (getDateRange now).start ++ " - "
            ++ (getDateRange now).stop ++ ")"
          attachmentText := tr.total.amount ++ " " ++ tr.total.unit } ∧
      (handler env "services" now (fuel + 1)).detailFields = some
        (gr.groups.map fun g =>
          { title := g.keys.headD ""
            value := g.amortizedCost.amount ++ " " ++ g.amortizedCost.unit }) := by
  have hsvc : getServiceBilling env.groupedClient (fuel + 1) none =
      some (serviceRows gr.groups) := by
    rw [getServiceBilling_succ, hgp]
    simp [hgr, hgtok]
  have htot : getTotalBilling env.totalResp =
      some { unit := tr.total.unit, amount := tr.total.amount } := by
    rw [htp]
    simp [getTotalBilling, htr]
  refine ⟨?_, ?_, ?_⟩ <;>
    simp [handler, hname, htoken, hchannel, hsvc, htot, jsShow, serviceRows]

/-- C9 witness: total `1.23456 USD` and the one-page service detail
`Tax: 1.39 USD` flow through to the outputs verbatim. -/
theorem handler_amount_passthrough_witness :
    jsTruthy onePageEnv.slackSecretName = true ∧
      jsTruthy (onePageEnv.secretValue.bind SlackSecretValue.token) = true ∧
      jsTruthy (onePageEnv.secretValue.bind SlackSecretValue.channel) = true ∧
      onePageEnv.totalResp = some totalPage ∧
      totalPage.resultsByTime = [⟨⟨"1.23456", "USD"⟩, []⟩] ∧
      onePageEnv.groupedClient none = some chainPage2 ∧
      chainPage2.resultsByTime = [⟨⟨"", ""⟩, [⟨["Tax"], ⟨"1.39", "USD"⟩⟩]⟩] ∧
      jsTruthy chainPage2.nextPageToken = false ∧
      ((handler onePageEnv "services" ⟨2023, 1, 23⟩ (1 + 1)).totalBilling =
          some { unit := "USD", amount := "1.23456" } ∧
        (handler onePageEnv "services" ⟨2023, 1, 23⟩ (1 + 1)).rootPost = some
          { text := "AWS Cost Reports (" ++ (getDateRange ⟨2023, 1, 23⟩).start ++ " - "
              ++ (getDateRange ⟨2023, 1, 23⟩).stop ++ ")"
            attachmentText := "1.23456" ++ " " ++ "USD" } ∧
        (handler onePageEnv "services" ⟨2023, 1, 23⟩ (1 + 1)).detailFields = some
          ((⟨⟨"", ""⟩, [⟨["Tax"], ⟨"1.39", "USD"⟩⟩]⟩ : TimeResult).groups.map fun g =>
            { title := g.keys.headD ""
              value := g.amortizedCost.amount ++ " " ++ g.amortizedCost.unit })) :=
  ⟨rfl, rfl, rfl, rfl, rfl, rfl, rfl, rfl,
    handler_amount_passthrough onePageEnv ⟨2023, 1, 23⟩ 1 totalPage chainPage2
      ⟨⟨"1.23456", "USD"⟩, []⟩ ⟨⟨"", ""⟩, [⟨["Tax"], ⟨"1.39", "USD"⟩⟩]⟩
      rfl rfl rfl rfl rfl rfl rfl rfl⟩

end CostReport
